import Mathlib

/-!
Shallow embedding of the protocol engine of `go-joysticker`
(`joycontrol/protocol.go`): the per-connection `Protocol` state, the
subcommand dispatcher `processSubcommandReport` with its ten handlers, the
output-reader loop `readOutputReport`, the bootstrap task `sendEmptyReport`,
and a transition-system model of the bounded report queue created in
`NewProtocol`.

Machine integers are modelled as `Nat` with explicit `% 256` where the Go
code masks with `0xFF`; time is modelled as `Nat` nanoseconds; the panicking
slice index in `answerEnableImu` is modelled with `Option`.
-/

namespace Joycontrol

/-- Subcommand ids dispatched on in `processSubcommandReport`.  The numeric
constants live in the report codec (outside the engine); `other` covers every
id that is not one of the ten recognized ones. -/
inductive Subcommand where
  | requestDeviceInfo
  | setInputReportMode
  | triggerButtonsElapsedTime
  | setShipmentLowPowerState
  | spiFlashRead
  | setNfcMcuConfig
  | setNfcMcuState
  | setPlayerLights
  | enableImu
  | enableVibration
  | other (b : Nat)
deriving DecidableEq, Repr

/-- Go `true` exactly on the ten subcommand ids that have a dedicated case in the
`switch` of `processSubcommandReport`. -/
def Subcommand.recognized : Subcommand → Bool
  | .other _ => false
  | _ => true

/-- Input-report ids used by the engine (`StandardFullMode`,
`SubcommandReplies`). -/
inductive InputReportId where
  | standardFullMode
  | subcommandReplies
deriving DecidableEq, Repr

/-- Output-report ids branched on in `readOutputReport`. -/
inductive OutputReportId where
  | rumbleAndSubcommand
  | updateNFCPacket
  | rumbleOnly
  | requestNFCData
  | otherId (b : Nat)
deriving DecidableEq, Repr

/-- Modelled from the spec: the subcommand-specific acknowledgment payload a
reply carries; the codec's `ack*` builders append exactly one of these. -/
inductive AckKind where
  | deviceInfo (macAddr : List Nat)
  | setInputReportMode
  | triggerButtonsElapsedTime
  | setShipmentLowPowerState
  | spiFlashRead (data : List Nat)
  | setNfcMcuConfig
  | setNfcMcuState
  | setPlayerLights
  | enableImu
  | enableVibration
deriving DecidableEq, Repr

/-- Modelled from the spec: an InputReport as observed through the codec
capability "build standard report": the fields the engine's builder calls
populate.  A fresh report has every field unset. -/
structure InputReport where
  reportId : Option InputReportId := none
  elapsed : Option Nat := none
  deviceInfoFlag : Option Bool := none
  imuData : Option Bool := none
  ack : Option AckKind := none
deriving DecidableEq, Repr

/-- Modelled from the spec: `AllocStandardReport` hands back a blank standard
report. -/
def AllocStandardReport : InputReport := {}

/-- Modelled from the spec: `report.setReportId(id)` tags the report. -/
def InputReport.setReportId (r : InputReport) (i : InputReportId) : InputReport :=
  { r with reportId := some i }

/-- Modelled from the spec: `report.fillStandardData(elapsed, deviceInfo)`
populates the common header from the protocol state. -/
def InputReport.fillStandardData (r : InputReport) (elapsed : Nat)
    (deviceInfo : Bool) : InputReport :=
  { r with elapsed := some elapsed, deviceInfoFlag := some deviceInfo }

/-- Modelled from the spec: `report.setImuData(enabled)` records whether
motion-sensor data is included. -/
def InputReport.setImuData (r : InputReport) (enabled : Bool) : InputReport :=
  { r with imuData := some enabled }

/-- Modelled from the spec: each codec `ack*` builder appends its
acknowledgment payload. -/
def InputReport.setAck (r : InputReport) (a : AckKind) : InputReport :=
  { r with ack := some a }

/-- Modelled from the spec: an OutputReport as observed through the codec
capabilities `getSubcommand` / `getSubcommandData`: a report id, a subcommand
id and its payload bytes. -/
structure OutputReport where
  id : OutputReportId
  subcommand : Subcommand
  subcommandData : List Nat
deriving DecidableEq, Repr

/-- Codec capability: extract the subcommand id. -/
def OutputReport.getSubcommand (r : OutputReport) : Subcommand :=
  r.subcommand

/-- Codec capability: extract the subcommand payload bytes. -/
def OutputReport.getSubcommandData (r : OutputReport) : List Nat :=
  r.subcommandData

/-- The `Protocol` struct of `protocol.go`: per-connection mutable state.
The channel handles (`itr`, `ctrl`) and the queue are modelled at the
call sites; `elapsed` is the Go `int64` field (kept in `Nat`: the code only
ever stores `& 0xFF`-masked or constant `0xFF` values). -/
structure Protocol where
  lastTime : Nat
  elapsed : Nat
  reportReceived : Bool
  deviceInfoRequired : Bool
  imuEnabled : Bool
  macAddr : List Nat
deriving DecidableEq, Repr

/-- Go `NewProtocol` zero-initializes every state field (the queue it also
creates is modelled separately by `QueueStep`, capacity `queueCapacity`). -/
def NewProtocol : Protocol :=
  { lastTime := 0, elapsed := 0, reportReceived := false
    deviceInfoRequired := false, imuEnabled := false, macAddr := [] }

/-- The state part of `Setup`: record the MAC address supplied by the caller
(the fd bookkeeping and goroutine spawns have no state content). -/
def Protocol.setup (p : Protocol) (macAddr : List Nat) : Protocol :=
  { p with macAddr := macAddr }

/-- The capacity of the report queue: `make(chan *InputReport, 5)` in
`NewProtocol`. -/
def queueCapacity : Nat := 5

/-- Go `updateTimer`: compute `int64(duration/4) & 0xFF` from the wall-clock
delta, then unconditionally overwrite the field with `0xFF`, then set
`lastTime := now` — the sequence of assignments is kept exactly as written. -/
def updateTimer (p : Protocol) (now : Nat) : Protocol :=
  let duration := now - p.lastTime
  let p := { p with elapsed := (duration / 4) % 256 }
  let p := { p with elapsed := 0xFF }
  { p with lastTime := now }

/-- Go `processStandardFullReport`: build the unsolicited standard report (id
`StandardFullMode`, motion-sensor flag from current state).  The enqueue is
modelled at each call site. -/
def processStandardFullReport (p : Protocol) : InputReport :=
  let report := AllocStandardReport
  let report := report.setReportId .standardFullMode
  let report := report.setImuData p.imuEnabled
  report

/-- Go `answerSetMode`. -/
def answerSetMode (p : Protocol) (_data : List Nat) : Protocol × InputReport :=
  let report := AllocStandardReport
  let report := report.setReportId .subcommandReplies
  let report := report.fillStandardData p.elapsed p.deviceInfoRequired
  let report := report.setAck .setInputReportMode
  (p, report)

/-- Go `anwserTriggerButtonsElapsedTime` (sic). -/
def anwserTriggerButtonsElapsedTime (p : Protocol) : Protocol × InputReport :=
  let report := AllocStandardReport
  let report := report.setReportId .subcommandReplies
  let report := report.fillStandardData p.elapsed p.deviceInfoRequired
  let report := report.setAck .triggerButtonsElapsedTime
  (p, report)

/-- Go `answerDeviceInfo`: sets the sticky flag first, then fills the header
(so the header carries the updated value). -/
def answerDeviceInfo (p : Protocol) : Protocol × InputReport :=
  let p := { p with deviceInfoRequired := true }
  let report := AllocStandardReport
  let report := report.setReportId .subcommandReplies
  let report := report.fillStandardData p.elapsed p.deviceInfoRequired
  let report := report.setAck (.deviceInfo p.macAddr)
  (p, report)

/-- Go `answerSetShipmentState`. -/
def answerSetShipmentState (p : Protocol) : Protocol × InputReport :=
  let report := AllocStandardReport
  let report := report.setReportId .subcommandReplies
  let report := report.fillStandardData p.elapsed p.deviceInfoRequired
  let report := report.setAck .setShipmentLowPowerState
  (p, report)

/-- Go `answerSpiRead`. -/
def answerSpiRead (p : Protocol) (data : List Nat) : Protocol × InputReport :=
  let report := AllocStandardReport
  let report := report.setReportId .subcommandReplies
  let report := report.fillStandardData p.elapsed p.deviceInfoRequired
  let report := report.setAck (.spiFlashRead data)
  (p, report)

/-- Go `answerSetNfcMcuConfig`. -/
def answerSetNfcMcuConfig (p : Protocol) (_data : List Nat) : Protocol × InputReport :=
  let report := AllocStandardReport
  let report := report.setReportId .subcommandReplies
  let report := report.fillStandardData p.elapsed p.deviceInfoRequired
  let report := report.setAck .setNfcMcuConfig
  (p, report)

/-- Go `answerSetNfcMcuState`. -/
def answerSetNfcMcuState (p : Protocol) (_data : List Nat) : Protocol × InputReport :=
  let report := AllocStandardReport
  let report := report.setReportId .subcommandReplies
  let report := report.fillStandardData p.elapsed p.deviceInfoRequired
  let report := report.setAck .setNfcMcuState
  (p, report)

/-- Go `answerSetPlayerLights`. -/
def answerSetPlayerLights (p : Protocol) : Protocol × InputReport :=
  let report := AllocStandardReport
  let report := report.setReportId .subcommandReplies
  let report := report.fillStandardData p.elapsed p.deviceInfoRequired
  let report := report.setAck .setPlayerLights
  (p, report)

/-- Go `answerEnableImu`: `data[0]` is a panicking slice index in Go, so the
out-of-bounds access is the `none` branch; when byte 0 equals `0x01` the
flag is set `true`, and in no other case is it written. -/
def answerEnableImu (p : Protocol) (data : List Nat) : Option (Protocol × InputReport) :=
  match data.head? with
  | none => none
  | some b =>
    let p := if b == 0x01 then { p with imuEnabled := true } else p
    let report := AllocStandardReport
    let report := report.setReportId .subcommandReplies
    let report := report.fillStandardData p.elapsed p.deviceInfoRequired
    let report := report.setAck .enableImu
    some (p, report)

/-- Go `answerEnableVibration`. -/
def answerEnableVibration (p : Protocol) : Protocol × InputReport :=
  let report := AllocStandardReport
  let report := report.setReportId .subcommandReplies
  let report := report.fillStandardData p.elapsed p.deviceInfoRequired
  let report := report.setAck .enableVibration
  (p, report)

/-- Go `processSubcommandReport`: refresh the timer, then dispatch on the
subcommand id; every branch enqueues exactly the reports in the returned
list (in order).  `none` models the Go panic from `answerEnableImu`'s
out-of-bounds index. -/
def processSubcommandReport (p : Protocol) (now : Nat) (report : OutputReport) :
    Option (Protocol × List InputReport) :=
  let p := updateTimer p now
  match report.getSubcommand with
  | .requestDeviceInfo =>
    let (p, r) := answerDeviceInfo p
    some (p, [r])
  | .setInputReportMode =>
    let (p, r) := answerSetMode p report.getSubcommandData
    some (p, [r])
  | .triggerButtonsElapsedTime =>
    let (p, r) := anwserTriggerButtonsElapsedTime p
    some (p, [r])
  | .setShipmentLowPowerState =>
    let (p, r) := answerSetShipmentState p
    some (p, [r])
  | .spiFlashRead =>
    let (p, r) := answerSpiRead p report.getSubcommandData
    some (p, [r])
  | .setNfcMcuConfig =>
    let (p, r) := answerSetNfcMcuConfig p report.getSubcommandData
    some (p, [r])
  | .setNfcMcuState =>
    let (p, r) := answerSetNfcMcuState p report.getSubcommandData
    some (p, [r])
  | .setPlayerLights =>
    let (p, r) := answerSetPlayerLights p
    some (p, [r])
  | .enableImu =>
    match answerEnableImu p report.getSubcommandData with
    | none => none
    | some (p, r) => some (p, [r])
  | .enableVibration =>
    let (p, r) := answerEnableVibration p
    some (p, [r])
  | .other _ =>
    some (p, [processStandardFullReport p])

/-- One outcome of `p.output.load(p.itr)` in `readOutputReport`, together
with (for a successful read) the wall-clock time the subsequent dispatch
observes.  `wouldBlock` is the `EAGAIN` case; `emptyData`, `badLengthData`
and `malformedData` are the three codec framing errors; `otherError` is the
default error case. -/
inductive ReadResult where
  | wouldBlock
  | emptyData
  | badLengthData
  | malformedData
  | otherError
  | success (now : Nat) (report : OutputReport)
deriving DecidableEq, Repr

/-- What one run of the output-reader loop over a finite read trace did:
final state, the reports it enqueued (in order), how many subcommand
dispatches it performed, how many reads it consumed, and whether it hit a
`return` (`terminated = true`) or merely exhausted the supplied trace with
the loop still live (`terminated = false`). -/
structure ReaderOutcome where
  state : Protocol
  enqueued : List InputReport
  dispatches : Nat
  readsConsumed : Nat
  terminated : Bool
deriving DecidableEq, Repr

/-- Go `readOutputReport`: the output-reader loop, run over a finite trace of
read results.  `EAGAIN` retries immediately; a framing error enqueues one
standard report and returns; any other error returns; a successful read sets
`reportReceived` and branches on the report id, dispatching only
`RumbleAndSubcommand`.  `none` models a Go panic inside the dispatcher. -/
def readOutputReport (p : Protocol) : List ReadResult → Option ReaderOutcome
  | [] => some ⟨p, [], 0, 0, false⟩
  | r :: rest =>
    match r with
    | .wouldBlock =>
      (readOutputReport p rest).map fun o =>
        { o with readsConsumed := o.readsConsumed + 1 }
    | .emptyData | .badLengthData | .malformedData =>
      some ⟨p, [processStandardFullReport p], 0, 1, true⟩
    | .otherError =>
      some ⟨p, [], 0, 1, true⟩
    | .success now report =>
      let p := { p with reportReceived := true }
      match report.id with
      | .rumbleAndSubcommand =>
        match processSubcommandReport p now report with
        | none => none
        | some (p', outs) =>
          (readOutputReport p' rest).map fun o =>
            { o with enqueued := outs ++ o.enqueued
                     dispatches := o.dispatches + 1
                     readsConsumed := o.readsConsumed + 1 }
      | _ =>
        (readOutputReport p rest).map fun o =>
          { o with readsConsumed := o.readsConsumed + 1 }

/-- Go `sendEmptyReport` (the bootstrap task): a ticker with period one second
fires, exactly one tick is awaited, one standard report is enqueued, and the
ticker is stopped — the task then returns for good.  The result is the full
list of (delay, report) enqueue actions the task ever performs. -/
def sendEmptyReport (p : Protocol) : List (Nat × InputReport) :=
  let tickerPeriod := 1
  [(tickerPeriod, processStandardFullReport p)]

/-- A dispatch-labelled event on the report queue: a producer sends a report
into the channel, or the writer loop receives one. -/
inductive QueueEvent where
  | enq (r : InputReport)
  | deq (r : InputReport)

/-- One step of the queue created by `make(chan *InputReport, 5)`: a send
appends at the back and is only possible while fewer than `queueCapacity`
reports are pending (a producer attempting it otherwise stays suspended: no
transition exists); a receive takes the front of a non-empty buffer. -/
inductive QueueStep : List InputReport → QueueEvent → List InputReport → Prop
  | enq {q : List InputReport} {r : InputReport} (h : q.length < queueCapacity) :
      QueueStep q (.enq r) (q ++ [r])
  | deq {q : List InputReport} {r : InputReport} :
      QueueStep (r :: q) (.deq r) q

/-- A finite run of the queue: a sequence of `QueueStep`s. -/
inductive QueueTrace : List InputReport → List QueueEvent → List InputReport → Prop
  | nil {q : List InputReport} : QueueTrace q [] q
  | cons {q q' q'' : List InputReport} {e : QueueEvent} {es : List QueueEvent} :
      QueueStep q e q' → QueueTrace q' es q'' → QueueTrace q (e :: es) q''

/-- The reports sent in a queue trace, in order. -/
def enqueuedOf : List QueueEvent → List InputReport
  | [] => []
  | .enq r :: es => r :: enqueuedOf es
  | .deq _ :: es => enqueuedOf es

/-- The reports received in a queue trace, in order. -/
def dequeuedOf : List QueueEvent → List InputReport
  | [] => []
  | .enq _ :: es => dequeuedOf es
  | .deq r :: es => r :: dequeuedOf es

/-- Run a sequence of timed subcommand dispatches through the engine,
collecting every enqueued reply; `none` as soon as one dispatch panics. -/
def runSubcommands (p : Protocol) :
    List (Nat × OutputReport) → Option (Protocol × List InputReport)
  | [] => some (p, [])
  | (now, rep) :: evs =>
    match processSubcommandReport p now rep with
    | none => none
    | some (p', outs) =>
      match runSubcommands p' evs with
      | none => none
      | some (p'', outs') => some (p'', outs ++ outs')

/-- Property used to state the per-dispatch reply contract: the dispatch
succeeded, enqueued exactly one report, that report is tagged as a
subcommand reply, and its header carries the post-dispatch value of the
sticky device-info flag. -/
def dispatchRepliesOnce : Option (Protocol × List InputReport) → Bool
  | some (p', [r]) =>
    r.reportId == some InputReportId.subcommandReplies &&
    r.deviceInfoFlag == some p'.deviceInfoRequired
  | _ => false

/-! ## Helper lemmas -/

theorem updateTimer_fields (p : Protocol) (now : Nat) :
    (updateTimer p now).deviceInfoRequired = p.deviceInfoRequired ∧
    (updateTimer p now).imuEnabled = p.imuEnabled ∧
    (updateTimer p now).reportReceived = p.reportReceived ∧
    (updateTimer p now).macAddr = p.macAddr ∧
    (updateTimer p now).elapsed = 255 ∧
    (updateTimer p now).lastTime = now := by
  simp [updateTimer]

theorem processSubcommandReport_deviceInfo_char (p : Protocol) (now : Nat)
    (rep : OutputReport) (p' : Protocol) (outs : List InputReport)
    (h : processSubcommandReport p now rep = some (p', outs)) :
    p'.deviceInfoRequired =
      (p.deviceInfoRequired || rep.getSubcommand == Subcommand.requestDeviceInfo) := by
  obtain ⟨i, sc, data⟩ := rep
  cases sc <;>
    simp only [processSubcommandReport, OutputReport.getSubcommand,
      OutputReport.getSubcommandData, updateTimer, answerDeviceInfo,
      answerSetMode, anwserTriggerButtonsElapsedTime, answerSetShipmentState,
      answerSpiRead, answerSetNfcMcuConfig, answerSetNfcMcuState,
      answerSetPlayerLights, answerEnableImu, answerEnableVibration,
      Option.some.injEq, Prod.mk.injEq] at h <;>
    first
    | (obtain ⟨rfl, rfl⟩ := h
       simp [OutputReport.getSubcommand])
    | (cases data with
       | nil => simp at h
       | cons b rest =>
         simp only [List.head?] at h
         split at h <;> obtain ⟨rfl, rfl⟩ := h <;>
           simp [OutputReport.getSubcommand])

theorem processSubcommandReport_imu_char (p : Protocol) (now : Nat)
    (rep : OutputReport) (p' : Protocol) (outs : List InputReport)
    (h : processSubcommandReport p now rep = some (p', outs)) :
    p'.imuEnabled =
      (p.imuEnabled ||
        (rep.getSubcommand == Subcommand.enableImu &&
          rep.getSubcommandData.head? == some 1)) := by
  obtain ⟨i, sc, data⟩ := rep
  cases sc <;>
    simp only [processSubcommandReport, OutputReport.getSubcommand,
      OutputReport.getSubcommandData, updateTimer, answerDeviceInfo,
      answerSetMode, anwserTriggerButtonsElapsedTime, answerSetShipmentState,
      answerSpiRead, answerSetNfcMcuConfig, answerSetNfcMcuState,
      answerSetPlayerLights, answerEnableImu, answerEnableVibration,
      Option.some.injEq, Prod.mk.injEq] at h <;>
    first
    | (obtain ⟨rfl, rfl⟩ := h
       simp [OutputReport.getSubcommand, OutputReport.getSubcommandData])
    | (cases data with
       | nil => simp at h
       | cons b rest =>
         simp only [List.head?] at h
         split at h <;> rename_i hb <;> obtain ⟨rfl, rfl⟩ := h <;>
           simp_all [OutputReport.getSubcommand, OutputReport.getSubcommandData])

/-! ## Claims -/

/-- C1: the spec says the dispatcher sets the elapsed-ticks counter to
`(now - lastTimerTick) / tickUnit` truncated to 8 bits and places that value
in every reply header.  The code computes that value but then unconditionally
overwrites the field with `0xFF` before any reply is built: at
`lastTime = 0`, `now = 4` the derived value is `1`, yet the state and the
reply header both carry `255`.  Only the `lastTimerTick := now` part of the
claim holds. -/
theorem updateTimer_override_defeats_derived_elapsed :
    (updateTimer NewProtocol 4).elapsed = 255 ∧
    ((4 - NewProtocol.lastTime) / 4) % 256 = 1 ∧
    (255 : Nat) ≠ 1 ∧
    (updateTimer NewProtocol 4).lastTime = 4 ∧
    ((processSubcommandReport NewProtocol 4
        ⟨.rumbleAndSubcommand, .setPlayerLights, []⟩).map
      fun x => x.2.map (·.elapsed)) = some [some 255] := by
  refine ⟨by decide, by decide, by decide, by decide, ?_⟩
  rfl

/-- C2 counterexample: the claim says an `EnableImu` dispatch assigns
`motionSensorEnabled := (payload byte 0 == 1)`, so with the flag already
`true` and payload byte 0 equal to `0` it would become `false`; the code
leaves it `true` (it only ever sets the flag, never clears it). -/
theorem enableImu_zero_payload_keeps_flag :
    ((processSubcommandReport ⟨0, 0, false, false, true, []⟩ 0
        ⟨.rumbleAndSubcommand, .enableImu, [0]⟩).map
      fun x => x.1.imuEnabled) = some true ∧
    (([0].head? : Option Nat) == some 1) = false := by
  exact ⟨rfl, rfl⟩

/-- C2 amended: after any successful dispatch, `motionSensorEnabled` equals
its old value OR-ed with "the subcommand was `EnableImu` and payload byte 0
was 1": `EnableImu` with byte 1 sets it, every other dispatch (including
`EnableImu` with a byte other than 1) leaves it unchanged, and no other
subcommand ever writes it. -/
theorem imuEnabled_set_only_by_enableImu (p : Protocol) (now : Nat)
    (rep : OutputReport) (p' : Protocol) (outs : List InputReport)
    (h : processSubcommandReport p now rep = some (p', outs)) :
    p'.imuEnabled =
      (p.imuEnabled ||
        (rep.getSubcommand == Subcommand.enableImu &&
          rep.getSubcommandData.head? == some 1)) :=
  processSubcommandReport_imu_char p now rep p' outs h

/-- Witness for `imuEnabled_set_only_by_enableImu`: a concrete `EnableImu`
dispatch with payload byte 1 from the fresh state. -/
theorem imuEnabled_set_only_by_enableImu_witness :
    Protocol.imuEnabled ⟨0, 255, false, false, true, []⟩ =
      (NewProtocol.imuEnabled ||
        ((OutputReport.mk .rumbleAndSubcommand .enableImu [1]).getSubcommand ==
            Subcommand.enableImu &&
          (OutputReport.mk .rumbleAndSubcommand .enableImu
              [1]).getSubcommandData.head? == some 1)) :=
  imuEnabled_set_only_by_enableImu NewProtocol 0
    ⟨.rumbleAndSubcommand, .enableImu, [1]⟩
    ⟨0, 255, false, false, true, []⟩
    [⟨some .subcommandReplies, some 255, some false, none, some .enableImu⟩]
    rfl

/-- C6: a read yielding `EmptyData`, `BadLengthData` or `MalformedData`
makes the reader loop enqueue exactly one unsolicited standard report (the
very report the bootstrap path builds, `processStandardFullReport`) and
return: one read consumed, zero dispatches, terminated — whatever the rest
of the trace holds, it is never read. -/
theorem framing_error_enqueues_once_and_terminates (p : Protocol)
    (rest : List ReadResult) :
    readOutputReport p (.emptyData :: rest) =
      some ⟨p, [processStandardFullReport p], 0, 1, true⟩ ∧
    readOutputReport p (.badLengthData :: rest) =
      some ⟨p, [processStandardFullReport p], 0, 1, true⟩ ∧
    readOutputReport p (.malformedData :: rest) =
      some ⟨p, [processStandardFullReport p], 0, 1, true⟩ := by
  exact ⟨rfl, rfl, rfl⟩

/-- C7: on a trace of `n` would-block reads the loop consumes all `n` reads
(an immediate retry each step), never hits a terminal `return`, performs no
dispatch and enqueues nothing, for every `n`. -/
theorem wouldBlock_busy_polls_forever (p : Protocol) (n : Nat) :
    readOutputReport p (List.replicate n .wouldBlock) =
      some ⟨p, [], 0, n, false⟩ := by
  induction n with
  | zero => rfl
  | succ k ih =>
    simp [List.replicate, readOutputReport, ih]

/-- C9: the bootstrap task performs exactly one enqueue action, after one
ticker period (one second), of the unsolicited standard report whose
motion-sensor field is the current `imuEnabled` state; the action list being
a singleton is its permanent termination. -/
theorem bootstrap_enqueues_once (p : Protocol) :
    sendEmptyReport p = [(1, processStandardFullReport p)] ∧
    (processStandardFullReport p).reportId = some InputReportId.standardFullMode ∧
    (processStandardFullReport p).imuData = some p.imuEnabled ∧
    (processStandardFullReport p).ack = none := by
  exact ⟨rfl, rfl, rfl, rfl⟩

/-- C10: `answerEnableImu` indexes `data[0]` with no length guard; with a
non-empty payload the access is in bounds and the handler completes, and
with the empty payload the embedding reaches its out-of-bounds (`none`,
Go panic) branch — so the non-empty precondition is exactly what makes that
branch unreachable. -/
theorem answerEnableImu_needs_nonempty_payload (p : Protocol) (data : List Nat) :
    (data ≠ [] → (answerEnableImu p data).isSome = true) ∧
    answerEnableImu p [] = none := by
  constructor
  · intro hne
    cases data with
    | nil => exact absurd rfl hne
    | cons b rest => cases hb : (b == 0x01) <;> simp [answerEnableImu, hb]
  · rfl

/-- Witness for `answerEnableImu_needs_nonempty_payload`: the handler
completes on the concrete payload `[0]` from the fresh state. -/
theorem answerEnableImu_needs_nonempty_payload_witness :
    (answerEnableImu NewProtocol [0]).isSome = true :=
  (answerEnableImu_needs_nonempty_payload NewProtocol [0]).1 (by decide)

theorem readOutputReport_flag_mono (trace : List ReadResult) :
    ∀ (p : Protocol) (o : ReaderOutcome),
      readOutputReport p trace = some o →
      p.deviceInfoRequired = true → o.state.deviceInfoRequired = true := by
  induction trace with
  | nil =>
    intro p o h hp
    simp only [readOutputReport, Option.some.injEq] at h
    subst h
    exact hp
  | cons r rest ih =>
    intro p o h hp
    cases r with
    | wouldBlock =>
      simp only [readOutputReport, Option.map_eq_some'] at h
      obtain ⟨o', ho', rfl⟩ := h
      exact ih p o' ho' hp
    | emptyData =>
      simp only [readOutputReport, Option.some.injEq] at h
      subst h; exact hp
    | badLengthData =>
      simp only [readOutputReport, Option.some.injEq] at h
      subst h; exact hp
    | malformedData =>
      simp only [readOutputReport, Option.some.injEq] at h
      subst h; exact hp
    | otherError =>
      simp only [readOutputReport, Option.some.injEq] at h
      subst h; exact hp
    | success now rep =>
      obtain ⟨rid, sc, data⟩ := rep
      cases rid with
      | rumbleAndSubcommand =>
        simp only [readOutputReport] at h
        cases hd : processSubcommandReport
            { p with reportReceived := true } now ⟨.rumbleAndSubcommand, sc, data⟩ with
        | none => rw [hd] at h; simp at h
        | some pr =>
          obtain ⟨p1, outs1⟩ := pr
          rw [hd] at h
          simp only [Option.map_eq_some'] at h
          obtain ⟨o', ho', rfl⟩ := h
          have hflag := processSubcommandReport_deviceInfo_char _ now _ p1 outs1 hd
          apply ih p1 o' ho'
          rw [hflag]
          simp [hp]
      | updateNFCPacket =>
        simp only [readOutputReport, Option.map_eq_some'] at h
        obtain ⟨o', ho', rfl⟩ := h
        exact ih _ o' ho' hp
      | rumbleOnly =>
        simp only [readOutputReport, Option.map_eq_some'] at h
        obtain ⟨o', ho', rfl⟩ := h
        exact ih _ o' ho' hp
      | requestNFCData =>
        simp only [readOutputReport, Option.map_eq_some'] at h
        obtain ⟨o', ho', rfl⟩ := h
        exact ih _ o' ho' hp
      | otherId b =>
        simp only [readOutputReport, Option.map_eq_some'] at h
        obtain ⟨o', ho', rfl⟩ := h
        exact ih _ o' ho' hp

theorem runSubcommands_flag_char (evs : List (Nat × OutputReport)) :
    ∀ (p p' : Protocol) (outs : List InputReport),
      runSubcommands p evs = some (p', outs) →
      p'.deviceInfoRequired =
        (p.deviceInfoRequired ||
          evs.any fun e => e.2.getSubcommand == Subcommand.requestDeviceInfo) := by
  induction evs with
  | nil =>
    intro p p' outs h
    simp only [runSubcommands, Option.some.injEq, Prod.mk.injEq] at h
    obtain ⟨rfl, rfl⟩ := h
    simp
  | cons e evs ih =>
    intro p p' outs h
    obtain ⟨now, rep⟩ := e
    simp only [runSubcommands] at h
    cases hd : processSubcommandReport p now rep with
    | none => rw [hd] at h; simp at h
    | some pr =>
      obtain ⟨p1, outs1⟩ := pr
      rw [hd] at h
      dsimp only at h
      cases hr : runSubcommands p1 evs with
      | none => rw [hr] at h; simp at h
      | some pr2 =>
        obtain ⟨p2, outs2⟩ := pr2
        rw [hr] at h
        simp only [Option.some.injEq, Prod.mk.injEq] at h
        obtain ⟨rfl, rfl⟩ := h
        have h1 := processSubcommandReport_deviceInfo_char p now rep p1 outs1 hd
        have h2 := ih p1 p2 outs2 hr
        rw [h2, h1]
        simp [Bool.or_assoc]

/-- C3: the sticky device-info flag.  First conjunct: no reader-loop run
(and hence no operation it performs: reads, dispatches, error paths) ever
takes `deviceInfoRequired` from `true` back to `false`.  Second conjunct:
starting from the fresh `NewProtocol` state, after any sequence of
successful dispatches the flag is `true` exactly when the sequence contains
a `RequestDeviceInfo` subcommand — so it is `false` before the first one and
`true` forever after it. -/
theorem deviceInfoRequested_sticky :
    (∀ (p : Protocol) (trace : List ReadResult) (o : ReaderOutcome),
        readOutputReport p trace = some o → p.deviceInfoRequired = true →
        o.state.deviceInfoRequired = true) ∧
    (∀ (evs : List (Nat × OutputReport)) (p' : Protocol) (outs : List InputReport),
        runSubcommands NewProtocol evs = some (p', outs) →
        p'.deviceInfoRequired =
          evs.any fun e => e.2.getSubcommand == Subcommand.requestDeviceInfo) := by
  constructor
  · intro p trace o h hp
    exact readOutputReport_flag_mono trace p o h hp
  · intro evs p' outs h
    have hc := runSubcommands_flag_char evs NewProtocol p' outs h
    simpa [NewProtocol] using hc

/-- Witness for `deviceInfoRequested_sticky`: one concrete
`RequestDeviceInfo` dispatch from the fresh state flips the flag to the
`any`-characterized value. -/
theorem deviceInfoRequested_sticky_witness :
    Protocol.deviceInfoRequired ⟨0, 255, false, true, false, []⟩ =
      List.any
        [((0 : Nat), (⟨.rumbleAndSubcommand, .requestDeviceInfo, []⟩ : OutputReport))]
        (fun e => e.2.getSubcommand == Subcommand.requestDeviceInfo) :=
  deviceInfoRequested_sticky.2
    [((0 : Nat), ⟨.rumbleAndSubcommand, .requestDeviceInfo, []⟩)]
    ⟨0, 255, false, true, false, []⟩
    [⟨some .subcommandReplies, some 255, some true, none, some (.deviceInfo [])⟩]
    rfl

/-- C4: dispatching any of the ten recognized subcommands (for `EnableImu`,
with the non-empty payload that keeps the handler in bounds) enqueues
exactly one report, tagged `SubcommandReplies`, whose header carries the
current (post-dispatch) value of the sticky device-info flag. -/
theorem recognized_dispatch_replies_once (p : Protocol) (now : Nat)
    (rep : OutputReport)
    (hrec : rep.getSubcommand.recognized = true)
    (himu : rep.getSubcommand = Subcommand.enableImu → rep.getSubcommandData ≠ []) :
    dispatchRepliesOnce (processSubcommandReport p now rep) = true := by
  obtain ⟨i, sc, data⟩ := rep
  simp only [OutputReport.getSubcommand, OutputReport.getSubcommandData] at hrec himu
  cases sc
  case other b => simp [Subcommand.recognized] at hrec
  case enableImu =>
    cases data with
    | nil => exact absurd rfl (himu rfl)
    | cons b rest =>
      cases hb : (b == 0x01) <;>
        simp [processSubcommandReport, OutputReport.getSubcommand,
          OutputReport.getSubcommandData, answerEnableImu, List.head?, hb,
          dispatchRepliesOnce, AllocStandardReport, InputReport.setReportId,
          InputReport.fillStandardData, InputReport.setAck]
  all_goals
    simp [processSubcommandReport, OutputReport.getSubcommand,
      OutputReport.getSubcommandData, dispatchRepliesOnce, answerDeviceInfo,
      answerSetMode, anwserTriggerButtonsElapsedTime, answerSetShipmentState,
      answerSpiRead, answerSetNfcMcuConfig, answerSetNfcMcuState,
      answerSetPlayerLights, answerEnableVibration, AllocStandardReport,
      InputReport.setReportId, InputReport.fillStandardData, InputReport.setAck]

/-- Witness for `recognized_dispatch_replies_once`: the concrete
`SetPlayerLights` dispatch from the fresh state. -/
theorem recognized_dispatch_replies_once_witness :
    dispatchRepliesOnce
      (processSubcommandReport NewProtocol 0
        ⟨.rumbleAndSubcommand, .setPlayerLights, []⟩) = true :=
  recognized_dispatch_replies_once NewProtocol 0
    ⟨.rumbleAndSubcommand, .setPlayerLights, []⟩ (by decide) (by decide)

/-- C5 counterexample: the claim says an unrecognized-subcommand dispatch
performs "no protocol-state mutation", but the dispatcher refreshes the
timer before branching: dispatching id `0x99` from the fresh state (where
`elapsed = 0`) leaves `elapsed = 255`, a changed state. -/
theorem unknown_subcommand_mutates_timer :
    ((processSubcommandReport NewProtocol 8
        ⟨.rumbleAndSubcommand, .other 0x99, []⟩).map fun x => x.1) ≠
      some NewProtocol ∧
    ((processSubcommandReport NewProtocol 8
        ⟨.rumbleAndSubcommand, .other 0x99, []⟩).map fun x => x.1.elapsed) =
      some 255 ∧
    NewProtocol.elapsed = 0 := by
  refine ⟨by decide, rfl, rfl⟩

/-- C5 amended: an unrecognized-subcommand dispatch enqueues no
acknowledgment and exactly one plain unsolicited standard report (built by
the same `processStandardFullReport` as the bootstrap/handshake-reset path),
and leaves every flag (`deviceInfoRequired`, `imuEnabled`,
`reportReceived`) unchanged; the only state change is the dispatcher's
per-invocation timer refresh (`elapsed`, `lastTime`). -/
theorem unknown_subcommand_fallback (p : Protocol) (now : Nat)
    (rep : OutputReport) (h : rep.getSubcommand.recognized = false) :
    processSubcommandReport p now rep =
      some (updateTimer p now, [processStandardFullReport (updateTimer p now)]) ∧
    (processStandardFullReport (updateTimer p now)).reportId =
      some InputReportId.standardFullMode ∧
    (processStandardFullReport (updateTimer p now)).ack = none ∧
    (updateTimer p now).deviceInfoRequired = p.deviceInfoRequired ∧
    (updateTimer p now).imuEnabled = p.imuEnabled ∧
    (updateTimer p now).reportReceived = p.reportReceived := by
  obtain ⟨i, sc, data⟩ := rep
  cases sc <;>
    simp_all only [OutputReport.getSubcommand, Subcommand.recognized,
      Bool.true_eq_false]
  exact ⟨rfl, rfl, rfl, by simp [updateTimer], by simp [updateTimer],
    by simp [updateTimer]⟩

/-- Witness for `unknown_subcommand_fallback`: the concrete dispatch of the
unrecognized id `0x99` from the fresh state. -/
theorem unknown_subcommand_fallback_witness :
    processSubcommandReport NewProtocol 8
        ⟨.rumbleAndSubcommand, .other 0x99, []⟩ =
      some (updateTimer NewProtocol 8,
        [processStandardFullReport (updateTimer NewProtocol 8)]) ∧
    (processStandardFullReport (updateTimer NewProtocol 8)).reportId =
      some InputReportId.standardFullMode ∧
    (processStandardFullReport (updateTimer NewProtocol 8)).ack = none ∧
    (updateTimer NewProtocol 8).deviceInfoRequired =
      NewProtocol.deviceInfoRequired ∧
    (updateTimer NewProtocol 8).imuEnabled = NewProtocol.imuEnabled ∧
    (updateTimer NewProtocol 8).reportReceived = NewProtocol.reportReceived :=
  unknown_subcommand_fallback NewProtocol 8
    ⟨.rumbleAndSubcommand, .other 0x99, []⟩ (by decide)

theorem QueueTrace.length_le {q : List InputReport} {es : List QueueEvent}
    {q' : List InputReport} (h : QueueTrace q es q')
    (hq : q.length ≤ queueCapacity) : q'.length ≤ queueCapacity := by
  induction h with
  | nil => exact hq
  | cons hstep _ ih =>
    apply ih
    cases hstep with
    | enq hlt =>
      simp only [List.length_append, List.length_cons, List.length_nil]
      omega
    | deq =>
      simp only [List.length_cons] at hq
      omega

theorem QueueTrace.fifo {q : List InputReport} {es : List QueueEvent}
    {q' : List InputReport} (h : QueueTrace q es q') :
    dequeuedOf es ++ q' = q ++ enqueuedOf es := by
  induction h with
  | nil => simp [enqueuedOf, dequeuedOf]
  | cons hstep _ ih =>
    cases hstep with
    | enq hlt =>
      simp only [enqueuedOf, dequeuedOf]
      rw [ih]
      simp
    | deq =>
      simp only [enqueuedOf, dequeuedOf]
      rw [List.cons_append, ih]
      simp

/-- C8: the report queue.  First conjunct: along every run from the empty
queue, the buffer never exceeds `queueCapacity` (5) and the dequeued
sequence extended by the residual buffer is exactly the enqueued sequence in
order (FIFO).  Second: no enqueue step exists from a full buffer — the
producer stays suspended.  Third: from a full buffer the writer's dequeue
step exists, and after it the enqueue step is enabled again. -/
theorem report_queue_bounded_and_fifo :
    (∀ (es : List QueueEvent) (q' : List InputReport),
        QueueTrace [] es q' →
        q'.length ≤ queueCapacity ∧ dequeuedOf es ++ q' = enqueuedOf es) ∧
    (∀ (q : List InputReport) (r : InputReport),
        q.length = queueCapacity → ∀ q', ¬ QueueStep q (.enq r) q') ∧
    (∀ (x : InputReport) (q : List InputReport) (r : InputReport),
        (x :: q).length = queueCapacity →
        QueueStep (x :: q) (.deq x) q ∧ QueueStep q (.enq r) (q ++ [r])) := by
  refine ⟨?_, ?_, ?_⟩
  · intro es q' h
    refine ⟨h.length_le (by simp), ?_⟩
    have := h.fifo
    simpa using this
  · intro q r hq q' hstep
    cases hstep with
    | enq hlt => omega
  · intro x q r hq
    refine ⟨QueueStep.deq, QueueStep.enq ?_⟩
    simp only [List.length_cons] at hq
    simp only [queueCapacity] at hq ⊢
    omega

/-- Witness for `report_queue_bounded_and_fifo`: the concrete one-enqueue
run from the empty queue. -/
theorem report_queue_bounded_and_fifo_witness :
    ([AllocStandardReport] : List InputReport).length ≤ queueCapacity ∧
    dequeuedOf [QueueEvent.enq AllocStandardReport] ++ [AllocStandardReport] =
      enqueuedOf [QueueEvent.enq AllocStandardReport] :=
  report_queue_bounded_and_fifo.1 [QueueEvent.enq AllocStandardReport]
    [AllocStandardReport]
    (QueueTrace.cons (QueueStep.enq (by simp [queueCapacity])) QueueTrace.nil)

end Joycontrol
